import Mathlib

/-!
Shallow embedding of `src/ddp_mnist.py`, a single-file PyTorch DDP training
script, and verification of its specification claims.

The deep-learning framework (autograd, optimizer, data loaders, collective
communication) is abstracted into a `Framework` record of opaque functions;
the environment of the process (environment variables, pid, wall clock,
GPU count, presence of the MNIST dataset on disk) is a `World` record.
Everything the script itself does — reading environment variables, choosing
device indices, sequencing the per-epoch train/validation loops, accumulating
losses and timings, and writing log lines — is modelled directly from the
source, with observable effects recorded as an explicit event trace.
-/

namespace DDPMnist

/-- Decimal digit value of a character, `none` for non-digits. -/
def digit? (c : Char) : Option ℕ :=
  let n := c.toNat
  if 48 ≤ n ∧ n ≤ 57 then some (n - 48) else none

/-- Accumulate decimal digits; fails on the first non-digit. -/
def digitsAux : List Char → ℕ → Option ℕ
  | [], acc => some acc
  | c :: cs, acc =>
    match digit? c with
    | none => none
    | some d => digitsAux cs (10 * acc + d)

/-- Parse a non-empty all-digit character list as a natural number. -/
def parseNatDigits : List Char → Option ℕ
  | [] => none
  | cs => digitsAux cs 0

/-- Model of Python `int(s)` as used on the `RANK` / `WORLD_SIZE` environment
variable values (lines 166-167): an optional leading minus sign followed by
decimal digits; anything else raises `ValueError`, modelled as `none`. -/
def pyInt (s : String) : Option Int :=
  match s.data with
  | [] => none
  | '-' :: rest => (parseNatDigits rest).map (fun n => -(n : Int))
  | cs => (parseNatDigits cs).map (fun n => (n : Int))

/-- The four bootstrap environment variables read at line 162-164, in the
order the dict comprehension reads them. -/
def bootstrapKeys : List String :=
  ["MASTER_ADDR", "MASTER_PORT", "RANK", "WORLD_SIZE"]

/-- The values of the four bootstrap environment variables (`env_dict`). -/
structure EnvDict where
  masterAddr : String
  masterPort : String
  rankStr : String
  worldSizeStr : String
deriving DecidableEq

/-- One line written to the per-run log file, kept structured: the payload of
each `_print_and_log` call site in the source.
* `header1`..`header3`: the three startup lines (lines 175-177);
* `epochLoss`: `Epoch={i}, train_loss=…, val_loss=…` (line 129);
* `epochTime`: `Training time: …, Validation time: …` (line 130);
* `overallHeader`: the `---- Overall timing results ----` separator (line 136);
* `summary`: one per-epoch line of the final timing recap (line 138). -/
inductive LogLine where
  | header1 (path : String)
  | header2 (pid : ℕ) (env : EnvDict)
  | header3 (worldSize rank : Int)
  | epochLoss (i : ℕ) (trainLoss valLoss : ℚ)
  | epochTime (timeTrain timeVal : ℚ)
  | overallHeader
  | summary (i : ℕ) (timeTrain timeVal : ℚ)
deriving DecidableEq

/-- Observable actions of the script, in program order. -/
inductive Event where
  | setDevice (idx : Int)          -- torch.cuda.set_device (line 169)
  | initProcessGroup               -- init_process_group (line 170)
  | openLogFile (path : String)    -- open(file_path, 'w') (line 174)
  | downloadDataset (path : String) -- datasets.MNIST with download=True writing
  | createLoaders                  -- create_data_loaders returns (line 179)
  | createModel                    -- create_model() (line 182)
  | modelToDevice (idx : Int)      -- model.to(device); DDP(...) (lines 78-80)
  | trainMode (epoch : ℕ)          -- model.train() (line 90)
  | setEpoch (i : ℕ)               -- train_loader.sampler.set_epoch(i) (line 91)
  | trainBatch (epoch : ℕ) (device : Int) -- one iteration of the train loop
  | evalMode (epoch : ℕ)           -- torch.no_grad() + model.eval() (113-114)
  | valBatch (epoch : ℕ) (device : Int)   -- one iteration of the val loop
  | logWrite (line : LogLine)      -- _print_and_log
  | destroyProcessGroup            -- destroy_process_group (line 189)
deriving DecidableEq

/-- Uncaught Python exceptions the script can die with before training. -/
inductive Err where
  | keyError (k : String)      -- os.environ[key] with the key missing
  | valueError (s : String)    -- int() on a non-numeric string
  | zeroDivisionError          -- rank % num_gpus with num_gpus == 0
deriving DecidableEq

/-- Abstraction of the deep-learning framework. `P` is the type of model
parameter states, `B` the type of data batches.
* `trainBatchesAt i`: contents of `train_loader` during epoch `i` (the
  distributed sampler reshuffles per epoch);
* `valBatches`: contents of `test_loader`;
* `trainLoss p b` / `evalLoss p b`: the mean cross-entropy `loss(y_hat, y)`
  of batch `b` under parameters `p` in train / eval mode;
* `step p b`: parameters after `zero_grad`, `backward` and `optimizer.step()`;
* `batchSize b`: `x.shape[0]`. -/
structure Framework (P B : Type) where
  initParams : P
  batchSize : B → ℕ
  trainBatchesAt : ℕ → List B
  valBatches : List B
  trainLoss : P → B → ℚ
  evalLoss : P → B → ℚ
  step : P → B → P

/-- The train loop of one epoch (lines 96-108): fold over the batches,
updating the parameters with an optimizer step and accumulating
`epoch_loss += batch_loss.item() / x.shape[0]`. -/
def trainFold {P B : Type} (fw : Framework P B) (p0 : P) (bs : List B) : P × ℚ :=
  bs.foldl (fun s b =>
    (fw.step s.1 b, s.2 + fw.trainLoss s.1 b / (fw.batchSize b : ℚ))) (p0, 0)

/-- The validation loop of one epoch (lines 117-126): the body reads the
parameters but contains no update to them; it accumulates
`val_loss += batch_loss.item() / x.shape[0]`. -/
def valFold {P B : Type} (fw : Framework P B) (p0 : P) (bs : List B) : P × ℚ :=
  bs.foldl (fun s b =>
    (s.1, s.2 + fw.evalLoss s.1 b / (fw.batchSize b : ℚ))) (p0, 0)

/-- The list of per-batch terms `batch_loss.item() / x.shape[0]` produced by
one epoch's train loop, with the parameters evolving by one optimizer step
per batch.  Its sum is the claimed value of the logged `train_loss`. -/
def perBatchTrainTerms {P B : Type} (fw : Framework P B) : P → List B → List ℚ
  | _, [] => []
  | p, b :: bs =>
    (fw.trainLoss p b / (fw.batchSize b : ℚ)) :: perBatchTrainTerms fw (fw.step p b) bs

/-- Model parameters at the start of epoch `n` (after `n` full epochs of the
loop at lines 88-133). -/
def paramsAt {P B : Type} (fw : Framework P B) : ℕ → P
  | 0 => fw.initParams
  | n + 1 =>
    (valFold fw (trainFold fw (paramsAt fw n) (fw.trainBatchesAt n)).1 fw.valBatches).1

/-- Model parameters right after epoch `i`'s train loop. -/
def trainEndParams {P B : Type} (fw : Framework P B) (i : ℕ) : P :=
  (trainFold fw (paramsAt fw i) (fw.trainBatchesAt i)).1

/-- The `epoch_loss` value logged for epoch `i`. -/
def epochTrainLoss {P B : Type} (fw : Framework P B) (i : ℕ) : ℚ :=
  (trainFold fw (paramsAt fw i) (fw.trainBatchesAt i)).2

/-- The `val_loss` value logged for epoch `i`. -/
def epochValLoss {P B : Type} (fw : Framework P B) (i : ℕ) : ℚ :=
  (valFold fw (trainEndParams fw i) fw.valBatches).2

/-- Epoch `i` reads the wall clock four times, at indices `4i .. 4i+3`:
`time.time()` at lines 89, 109, 112 and 127.  `time_training` of epoch `i`. -/
def timeTrainVal (clock : ℕ → ℚ) (i : ℕ) : ℚ :=
  clock (4 * i + 1) - clock (4 * i)

/-- `time_val` of epoch `i`. -/
def timeValVal (clock : ℕ → ℚ) (i : ℕ) : ℚ :=
  clock (4 * i + 3) - clock (4 * i + 2)

/-- The two log lines written by rank 0 inside the loop for epoch `i`
(lines 128-131). -/
def loopLines {P B : Type} (fw : Framework P B) (clock : ℕ → ℚ) (i : ℕ) : List LogLine :=
  [LogLine.epochLoss i (epochTrainLoss fw i) (epochValLoss fw i),
   LogLine.epochTime (timeTrainVal clock i) (timeValVal clock i)]

/-- All events of one iteration of the epoch loop (lines 88-133). -/
def epochEvents {P B : Type} (fw : Framework P B) (rank : Int) (clock : ℕ → ℚ)
    (i : ℕ) : List Event :=
  [Event.trainMode i, Event.setEpoch i]
    ++ (fw.trainBatchesAt i).map (fun _ => Event.trainBatch i rank)
    ++ [Event.evalMode i]
    ++ fw.valBatches.map (fun _ => Event.valBatch i rank)
    ++ (if rank = 0 then (loopLines fw clock i).map Event.logWrite else [])

/-- The mutable state of `main`'s epoch loop: the (DDP-wrapped) model
parameters, the log lines and events emitted so far, the two timing lists
`time_training_ls` / `time_val_ls`, and the number of `time.time()` calls
made so far. -/
structure MainState (P : Type) where
  params : P
  log : List LogLine
  events : List Event
  timeTrainLs : List ℚ
  timeValLs : List ℚ
  ctr : ℕ

/-- State at entry to the epoch loop: the model has been moved to
`cuda:{rank}` and wrapped in DDP (lines 78-80); nothing logged yet. -/
def startState {P B : Type} (fw : Framework P B) (rank : Int) : MainState P :=
  { params := fw.initParams
    log := []
    events := [Event.modelToDevice rank]
    timeTrainLs := []
    timeValLs := []
    ctr := 0 }

/-- One iteration of the epoch loop (lines 88-133), translated statement by
statement: read the clock, run the train fold, read the clock, run the
validation fold under `no_grad`/`eval`, read the clock twice, log the two
lines when `rank == 0`, and append the timings. -/
def epochStep {P B : Type} (fw : Framework P B) (rank : Int) (clock : ℕ → ℚ)
    (s : MainState P) (i : ℕ) : MainState P :=
  let tTrain := clock (s.ctr + 1) - clock s.ctr
  let tr := trainFold fw s.params (fw.trainBatchesAt i)
  let va := valFold fw tr.1 fw.valBatches
  let tVal := clock (s.ctr + 3) - clock (s.ctr + 2)
  let lines := if rank = 0 then
      [LogLine.epochLoss i tr.2 va.2, LogLine.epochTime tTrain tVal]
    else []
  { params := va.1
    log := s.log ++ lines
    events := s.events ++ ([Event.trainMode i, Event.setEpoch i]
        ++ (fw.trainBatchesAt i).map (fun _ => Event.trainBatch i rank)
        ++ [Event.evalMode i]
        ++ fw.valBatches.map (fun _ => Event.valBatch i rank)
        ++ lines.map Event.logWrite)
    timeTrainLs := s.timeTrainLs ++ [tTrain]
    timeValLs := s.timeValLs ++ [tVal]
    ctr := s.ctr + 4 }

/-- State after the first `n` iterations of the epoch loop. -/
def mainStateAfter {P B : Type} (fw : Framework P B) (rank : Int)
    (clock : ℕ → ℚ) : ℕ → MainState P
  | 0 => startState fw rank
  | n + 1 => epochStep fw rank clock (mainStateAfter fw rank clock n) n

/-- Concatenation of the blocks `f 0, f 1, …, f (n-1)`. -/
def segs {α : Type} (f : ℕ → List α) : ℕ → List α
  | 0 => []
  | n + 1 => segs f n ++ f n

/-- The list `[f 0, f 1, …, f (n-1)]`. -/
def colMap {α : Type} (f : ℕ → α) : ℕ → List α
  | 0 => []
  | n + 1 => colMap f n ++ [f n]

/-- Closed form of `mainStateAfter` (proved equal below). -/
def mainStateSpec {P B : Type} (fw : Framework P B) (rank : Int)
    (clock : ℕ → ℚ) (n : ℕ) : MainState P :=
  { params := paramsAt fw n
    log := if rank = 0 then segs (loopLines fw clock) n else []
    events := Event.modelToDevice rank :: segs (epochEvents fw rank clock) n
    timeTrainLs := colMap (timeTrainVal clock) n
    timeValLs := colMap (timeValVal clock) n
    ctr := 4 * n }

/-- What `main` returns/emits: the unwrapped model (`model.module`), the log
lines it wrote, and its events. -/
structure MainResult (P : Type) where
  params : P
  log : List LogLine
  events : List Event

/-- The final recap block written by rank 0 (lines 135-139): the separator
followed by `zip(range(epochs), time_training_ls, time_val_ls)`. -/
def summaryLines (epochs : ℕ) (tt tv : List ℚ) : List LogLine :=
  LogLine.overallHeader ::
    List.zipWith (fun i p => LogLine.summary i p.1 p.2) (List.range epochs) (tt.zip tv)

/-- The function `main` (lines 73-141). -/
def runMain {P B : Type} (fw : Framework P B) (rank : Int) (clock : ℕ → ℚ)
    (epochs : ℕ) : MainResult P :=
  let s := mainStateAfter fw rank clock epochs
  let tail := if rank = 0 then summaryLines epochs s.timeTrainLs s.timeValLs else []
  { params := s.params
    log := s.log ++ tail
    events := s.events ++ tail.map Event.logWrite }

/-- Everything outside the script that a run can observe: `os.environ`,
`os.getpid()`, `datetime.now().strftime("%H_%M_%S")`,
`torch.cuda.device_count()`, whether `./mnist_data` already holds the
dataset, successive `time.time()` readings, and the parsed value of the
(unused) `--local_rank` command-line flag. -/
structure World where
  envGet : String → Option String
  pid : ℕ
  currentTime : String
  numGpus : ℕ
  datasetPresent : Bool
  clock : ℕ → ℚ
  argvLocalRank : Option Int

/-- The observable outcome of a successful run of `__main__`. -/
structure ProgResult (P : Type) where
  rank : Int
  worldSize : Int
  numGpus : ℕ
  setDeviceIdx : Int
  trainDeviceIdx : Int
  logFilePath : String
  envReads : List String
  log : List LogLine
  filesOpened : List String
  filesWritten : List String
  events : List Event
  finalParams : P
deriving DecidableEq

/-- Directory the torchvision MNIST constructor downloads into (line 28). -/
def mnistDir : String := "./mnist_data"

/-- `file_path = "logger_ddp_{:s}_{:d}.txt".format(current_time, os.getpid())`
(line 172). -/
def logPathOf (w : World) : String :=
  "logger_ddp_" ++ w.currentTime ++ "_" ++ toString w.pid ++ ".txt"

/-- The three startup log lines written by rank 0 (lines 175-177). -/
def headerLines (w : World) (env : EnvDict) (worldSize rank : Int) : List LogLine :=
  [LogLine.header1 (logPathOf w), LogLine.header2 w.pid env,
   LogLine.header3 worldSize rank]

/-- The result of a successful run, assembled from the parsed rank/world
size (lines 166-189): device setup, optional log-file creation and headers,
data-loader construction (downloading the dataset when absent), model
construction, `main`, and process-group teardown.  The commented-out
`torch.save` (lines 186-187) writes nothing. -/
def buildResult {P B : Type} (w : World) (fw : Framework P B) (env : EnvDict)
    (rank worldSize : Int) : ProgResult P :=
  let mr := runMain fw rank w.clock 50
  let headers := if rank = 0 then headerLines w env worldSize rank else []
  { rank := rank
    worldSize := worldSize
    numGpus := w.numGpus
    setDeviceIdx := rank % (w.numGpus : Int)
    trainDeviceIdx := rank
    logFilePath := logPathOf w
    envReads := bootstrapKeys
    log := headers ++ mr.log
    filesOpened := if rank = 0 then [logPathOf w] else []
    filesWritten := (if rank = 0 then [logPathOf w] else [])
      ++ (if w.datasetPresent then [] else [mnistDir])
    events := Event.setDevice (rank % (w.numGpus : Int)) :: Event.initProcessGroup ::
      ((if rank = 0 then Event.openLogFile (logPathOf w) :: headers.map Event.logWrite
        else [])
        ++ (if w.datasetPresent then [] else [Event.downloadDataset mnistDir])
        ++ Event.createLoaders :: Event.createModel :: (mr.events
        ++ [Event.destroyProcessGroup]))
    finalParams := mr.params }

/-- The `__main__` block (lines 151-189).  `epochs = 50` (line 160).  A
missing bootstrap variable raises `KeyError` at the dict comprehension
(lines 162-164, read in order); a non-numeric `RANK`/`WORLD_SIZE` raises
`ValueError` at `int(...)`; `rank % num_gpus` with zero GPUs raises
`ZeroDivisionError`.  All of these fire before any observable event, so an
error carries the (empty) trace emitted up to that point. -/
def runProgram {P B : Type} (w : World) (fw : Framework P B) :
    Except (Err × List Event) (ProgResult P) :=
  match w.envGet "MASTER_ADDR" with
  | none => .error (.keyError "MASTER_ADDR", [])
  | some ma =>
  match w.envGet "MASTER_PORT" with
  | none => .error (.keyError "MASTER_PORT", [])
  | some mp =>
  match w.envGet "RANK" with
  | none => .error (.keyError "RANK", [])
  | some rs =>
  match w.envGet "WORLD_SIZE" with
  | none => .error (.keyError "WORLD_SIZE", [])
  | some ws =>
  match pyInt rs with
  | none => .error (.valueError rs, [])
  | some rank =>
  match pyInt ws with
  | none => .error (.valueError ws, [])
  | some worldSize =>
  if w.numGpus = 0 then .error (.zeroDivisionError, [])
  else .ok (buildResult w fw ⟨ma, mp, rs, ws⟩ rank worldSize)

/-- Is this log line the `Epoch={i}, train_loss=…, val_loss=…` line of
epoch `i`? -/
def isLossLineFor (i : ℕ) : LogLine → Bool
  | .epochLoss j _ _ => j == i
  | _ => false

/-- Is this log line a `Training time: …, Validation time: …` line? -/
def isTimeLine : LogLine → Bool
  | .epochTime _ _ => true
  | _ => false

/-- Is this log line one of the two lines written inside the epoch loop? -/
def isLoopLine : LogLine → Bool
  | .epochLoss _ _ _ => true
  | .epochTime _ _ => true
  | _ => false

/-- The numeric loss/timing payloads of a log line. -/
def lineVals : LogLine → List ℚ
  | .epochLoss _ a b => [a, b]
  | .epochTime a b => [a, b]
  | .summary _ a b => [a, b]
  | _ => []

/-- Phase of a log line within the run (header block, loop block, recap). -/
def linePhase : LogLine → ℕ
  | .header1 _ => 2
  | .header2 _ _ => 2
  | .header3 _ _ => 2
  | .epochLoss _ _ _ => 6
  | .epochTime _ _ => 6
  | .overallHeader => 7
  | .summary _ _ _ => 7

/-- Phase of an event within the linear orchestration of the script: device
setup, group initialization, log-file creation, loader construction, model
construction, the epoch loop, the rank-0 timing recap, teardown. -/
def eventPhase : Event → ℕ
  | .setDevice _ => 0
  | .initProcessGroup => 1
  | .openLogFile _ => 2
  | .logWrite l => linePhase l
  | .downloadDataset _ => 3
  | .createLoaders => 3
  | .createModel => 4
  | .modelToDevice _ => 5
  | .trainMode _ => 6
  | .setEpoch _ => 6
  | .trainBatch _ _ => 6
  | .evalMode _ => 6
  | .valBatch _ _ => 6
  | .destroyProcessGroup => 8

/-! ### Concrete instances, used to exhibit witnesses and counterexamples -/

/-- A minimal concrete framework: trivial parameters, one train batch and
one validation batch of size 1 per epoch, zero losses. -/
def cFW : Framework Unit Unit :=
  { initParams := ()
    batchSize := fun _ => 1
    trainBatchesAt := fun _ => [()]
    valBatches := [()]
    trainLoss := fun _ _ => 0
    evalLoss := fun _ _ => 0
    step := fun p _ => p }

/-- An environment holding all four bootstrap variables, with `RANK=0`. -/
def cEnv : String → Option String := fun k =>
  if k = "MASTER_ADDR" then some "127.0.0.1"
  else if k = "MASTER_PORT" then some "29500"
  else if k = "RANK" then some "0"
  else if k = "WORLD_SIZE" then some "2"
  else none

/-- A rank-0 world: one GPU, dataset already on disk, clock reading `n` at
the `n`-th call. -/
def cWorldOk : World :=
  { envGet := cEnv
    pid := 7
    currentTime := "12_00_00"
    numGpus := 1
    datasetPresent := true
    clock := fun n => (n : ℚ)
    argvLocalRank := none }

/-- Same world with `RANK=1` (a non-zero rank, equal to the GPU count). -/
def cWorldR1 : World :=
  { cWorldOk with envGet := fun k => if k = "RANK" then some "1" else cEnv k }

/-- Same world as `cWorldOk` but with the dataset not yet downloaded. -/
def cWorldDl : World :=
  { cWorldOk with datasetPresent := false }

/-- A world with every environment variable missing. -/
def cWorldBad : World :=
  { cWorldOk with envGet := fun _ => none }

/-- Fallback result (never reached on the worlds above). -/
def cDefault : ProgResult Unit :=
  { rank := 0, worldSize := 0, numGpus := 0, setDeviceIdx := 0
    trainDeviceIdx := 0, logFilePath := "", envReads := [], log := []
    filesOpened := [], filesWritten := [], events := [], finalParams := () }

/-- The result of the concrete rank-0 run. -/
def cRes : ProgResult Unit :=
  match runProgram cWorldOk cFW with
  | .ok r => r
  | .error _ => cDefault

/-- The result of the concrete rank-1 run. -/
def cResR1 : ProgResult Unit :=
  match runProgram cWorldR1 cFW with
  | .ok r => r
  | .error _ => cDefault

/-- The result of the concrete rank-0 run that downloads the dataset. -/
def cResDl : ProgResult Unit :=
  match runProgram cWorldDl cFW with
  | .ok r => r
  | .error _ => cDefault

/-- Closed form of the rank-0 recap block (lines 135-139). -/
def recapLines (clock : ℕ → ℚ) (n : ℕ) : List LogLine :=
  LogLine.overallHeader ::
    colMap (fun i => LogLine.summary i (timeTrainVal clock i) (timeValVal clock i)) n

/-!  ### Lemmas about the folds of one epoch  -/

set_option maxRecDepth 100000

theorem valFold_foldl_fst {P B : Type} (fw : Framework P B) (bs : List B) :
    ∀ (p : P) (acc : ℚ),
      (bs.foldl (fun s b => (s.1, s.2 + fw.evalLoss s.1 b / (fw.batchSize b : ℚ)))
        (p, acc)).1 = p := by
  induction bs with
  | nil => intro p acc; rfl
  | cons b bs ih => intro p acc; exact ih p _

/-- The validation loop leaves the model parameters unchanged: its body
computes losses from them but never updates them. -/
theorem valFold_params {P B : Type} (fw : Framework P B) (p : P) (bs : List B) :
    (valFold fw p bs).1 = p :=
  valFold_foldl_fst fw bs p 0

theorem valFold_foldl_snd {P B : Type} (fw : Framework P B) (bs : List B) :
    ∀ (p : P) (acc : ℚ),
      (bs.foldl (fun s b => (s.1, s.2 + fw.evalLoss s.1 b / (fw.batchSize b : ℚ)))
        (p, acc)).2
      = acc + (bs.map (fun b => fw.evalLoss p b / (fw.batchSize b : ℚ))).sum := by
  induction bs with
  | nil => intro p acc; simp
  | cons b bs ih =>
    intro p acc
    simp only [List.foldl_cons, List.map_cons, List.sum_cons]
    rw [ih]
    ring

/-- The accumulated `val_loss` is the sum over validation batches of the
batch's mean loss divided (again) by the batch size. -/
theorem valFold_sum {P B : Type} (fw : Framework P B) (p : P) (bs : List B) :
    (valFold fw p bs).2
      = (bs.map (fun b => fw.evalLoss p b / (fw.batchSize b : ℚ))).sum := by
  rw [valFold, valFold_foldl_snd]
  ring

theorem trainFold_foldl_snd {P B : Type} (fw : Framework P B) (bs : List B) :
    ∀ (p : P) (acc : ℚ),
      (bs.foldl (fun s b =>
          (fw.step s.1 b, s.2 + fw.trainLoss s.1 b / (fw.batchSize b : ℚ)))
        (p, acc)).2
      = acc + (perBatchTrainTerms fw p bs).sum := by
  induction bs with
  | nil => intro p acc; simp [perBatchTrainTerms]
  | cons b bs ih =>
    intro p acc
    simp only [List.foldl_cons, perBatchTrainTerms, List.sum_cons]
    rw [ih]
    ring

/-- The accumulated `epoch_loss` is the sum over the epoch's train batches of
the batch's mean loss divided (again) by the batch size, the parameters
advancing by one optimizer step per batch. -/
theorem trainFold_sum {P B : Type} (fw : Framework P B) (p : P) (bs : List B) :
    (trainFold fw p bs).2 = (perBatchTrainTerms fw p bs).sum := by
  rw [trainFold, trainFold_foldl_snd]
  ring

theorem perBatchTrainTerms_nonneg {P B : Type} (fw : Framework P B)
    (hL : ∀ p b, 0 ≤ fw.trainLoss p b) (bs : List B) :
    ∀ (p : P), ∀ x ∈ perBatchTrainTerms fw p bs, 0 ≤ x := by
  induction bs with
  | nil => intro p x hx; simp [perBatchTrainTerms] at hx
  | cons b bs ih =>
    intro p x hx
    rw [perBatchTrainTerms, List.mem_cons] at hx
    rcases hx with rfl | hx
    · exact div_nonneg (hL _ _) (Nat.cast_nonneg _)
    · exact ih _ x hx

theorem epochTrainLoss_nonneg {P B : Type} (fw : Framework P B)
    (hL : ∀ p b, 0 ≤ fw.trainLoss p b) (i : ℕ) : 0 ≤ epochTrainLoss fw i := by
  rw [epochTrainLoss, trainFold_sum]
  exact List.sum_nonneg (perBatchTrainTerms_nonneg fw hL _ _)

theorem epochValLoss_nonneg {P B : Type} (fw : Framework P B)
    (hE : ∀ p b, 0 ≤ fw.evalLoss p b) (i : ℕ) : 0 ≤ epochValLoss fw i := by
  rw [epochValLoss, valFold_sum]
  refine List.sum_nonneg ?_
  intro x hx
  obtain ⟨b, _, rfl⟩ := List.mem_map.mp hx
  exact div_nonneg (hE _ _) (Nat.cast_nonneg _)

theorem timeTrainVal_nonneg {clock : ℕ → ℚ} (hclk : Monotone clock) (i : ℕ) :
    0 ≤ timeTrainVal clock i :=
  sub_nonneg.mpr (hclk (by omega))

theorem timeValVal_nonneg {clock : ℕ → ℚ} (hclk : Monotone clock) (i : ℕ) :
    0 ≤ timeValVal clock i :=
  sub_nonneg.mpr (hclk (by omega))

/-!  ### Lemmas about `segs` and `colMap`  -/

theorem mem_segs {α : Type} (f : ℕ → List α) (n : ℕ) (a : α) :
    a ∈ segs f n ↔ ∃ i, i < n ∧ a ∈ f i := by
  induction n with
  | zero => simp [segs]
  | succ n ih =>
    rw [segs, List.mem_append, ih]
    constructor
    · rintro (⟨i, hi, ha⟩ | ha)
      exacts [⟨i, by omega, ha⟩, ⟨n, by omega, ha⟩]
    · rintro ⟨i, hi, ha⟩
      rcases Nat.lt_succ_iff_lt_or_eq.mp hi with h | rfl
      exacts [Or.inl ⟨i, h, ha⟩, Or.inr ha]

theorem mem_colMap {α : Type} (f : ℕ → α) (n : ℕ) (a : α) :
    a ∈ colMap f n ↔ ∃ i, i < n ∧ a = f i := by
  induction n with
  | zero => simp [colMap]
  | succ n ih =>
    rw [colMap, List.mem_append, ih]
    constructor
    · rintro (⟨i, hi, ha⟩ | ha)
      · exact ⟨i, by omega, ha⟩
      · exact ⟨n, by omega, by simpa using ha⟩
    · rintro ⟨i, hi, ha⟩
      rcases Nat.lt_succ_iff_lt_or_eq.mp hi with h | rfl
      exacts [Or.inl ⟨i, h, ha⟩, Or.inr (by simpa using ha)]

theorem colMap_length {α : Type} (f : ℕ → α) (n : ℕ) : (colMap f n).length = n := by
  induction n with
  | zero => rfl
  | succ n ih => simp [colMap, ih]

theorem zip_colMap {α β : Type} (f : ℕ → α) (g : ℕ → β) (n : ℕ) :
    (colMap f n).zip (colMap g n) = colMap (fun i => (f i, g i)) n := by
  induction n with
  | zero => rfl
  | succ n ih =>
    rw [colMap, colMap, colMap, List.zip_append (by rw [colMap_length, colMap_length]), ih]
    rfl

theorem zipWith_range_colMap {β γ : Type} (h : ℕ → β → γ) (g : ℕ → β) (n : ℕ) :
    List.zipWith h (List.range n) (colMap g n) = colMap (fun i => h i (g i)) n := by
  induction n with
  | zero => rfl
  | succ n ih =>
    rw [List.range_succ, colMap,
      List.zipWith_append _ _ _ _ _ (by rw [List.length_range, colMap_length]), ih, colMap]
    rfl

theorem summaryLines_colMap (tt tv : ℕ → ℚ) (n : ℕ) :
    summaryLines n (colMap tt n) (colMap tv n)
      = LogLine.overallHeader :: colMap (fun i => LogLine.summary i (tt i) (tv i)) n := by
  unfold summaryLines
  rw [zip_colMap, zipWith_range_colMap]

theorem filter_segs {α : Type} (p : α → Bool) (f : ℕ → List α) (n : ℕ) :
    (segs f n).filter p = segs (fun i => (f i).filter p) n := by
  induction n with
  | zero => rfl
  | succ n ih => rw [segs, List.filter_append, ih, segs]

theorem segs_decomp {α : Type} (f : ℕ → List α) {i n : ℕ} (h : i < n) :
    ∃ suf, segs f n = segs f i ++ (f i ++ suf) ∧
      ∀ a ∈ suf, ∃ j, i < j ∧ j < n ∧ a ∈ f j := by
  induction n with
  | zero => omega
  | succ n ih =>
    rcases Nat.lt_succ_iff_lt_or_eq.mp h with h' | rfl
    · obtain ⟨suf, hs, hm⟩ := ih h'
      refine ⟨suf ++ f n, ?_, ?_⟩
      · rw [segs, hs]
        simp [List.append_assoc]
      · intro a ha
        rcases List.mem_append.mp ha with ha | ha
        · obtain ⟨j, h1, h2, h3⟩ := hm a ha
          exact ⟨j, h1, by omega, h3⟩
        · exact ⟨n, h', by omega, ha⟩
    · exact ⟨[], by rw [segs]; simp, by simp⟩

/-!  ### Closed form of the epoch loop and of `main`  -/

theorem mainStateAfter_eq {P B : Type} (fw : Framework P B) (rank : Int)
    (clock : ℕ → ℚ) (n : ℕ) :
    mainStateAfter fw rank clock n = mainStateSpec fw rank clock n := by
  induction n with
  | zero =>
    simp [mainStateAfter, mainStateSpec, startState, segs, colMap, paramsAt]
  | succ n ih =>
    rw [mainStateAfter, ih]
    simp only [epochStep, mainStateSpec, MainState.mk.injEq, segs, colMap]
    refine ⟨rfl, ?_, ?_, ?_, ?_, by omega⟩
    · by_cases hr : rank = 0 <;>
        simp [hr, loopLines, epochTrainLoss, epochValLoss, trainEndParams,
          timeTrainVal, timeValVal]
    · by_cases hr : rank = 0 <;>
        simp [hr, epochEvents, loopLines, epochTrainLoss, epochValLoss,
          trainEndParams, timeTrainVal, timeValVal]
    · simp [timeTrainVal]
    · simp [timeValVal]

theorem runMain_eq {P B : Type} (fw : Framework P B) (rank : Int)
    (clock : ℕ → ℚ) (n : ℕ) :
    runMain fw rank clock n =
      { params := paramsAt fw n
        log := if rank = 0 then segs (loopLines fw clock) n ++ recapLines clock n
          else []
        events := Event.modelToDevice rank ::
          (segs (epochEvents fw rank clock) n
            ++ if rank = 0 then (recapLines clock n).map Event.logWrite else []) } := by
  unfold runMain
  rw [mainStateAfter_eq]
  simp only [mainStateSpec]
  by_cases hr : rank = 0 <;>
    simp [hr, summaryLines_colMap, recapLines, MainResult.mk.injEq]

/-!  ### Counting the log lines of the epoch loop  -/

theorem lossLine_count {P B : Type} (fw : Framework P B) (clock : ℕ → ℚ) (i n : ℕ) :
    ((segs (loopLines fw clock) n).filter (isLossLineFor i)).length
      = if i < n then 1 else 0 := by
  induction n with
  | zero => simp [segs]
  | succ n ih =>
    rw [segs, List.filter_append, List.length_append, ih]
    have hstep : ((loopLines fw clock n).filter (isLossLineFor i)).length
        = if i = n then 1 else 0 := by
      by_cases h : n = i
      · subst h
        simp [loopLines, isLossLineFor]
      · simp [loopLines, isLossLineFor, h, Ne.symm h]
    rw [hstep]
    split_ifs <;> omega

theorem timeLine_count {P B : Type} (fw : Framework P B) (clock : ℕ → ℚ) (n : ℕ) :
    ((segs (loopLines fw clock) n).filter isTimeLine).length = n := by
  induction n with
  | zero => simp [segs]
  | succ n ih =>
    rw [segs, List.filter_append, List.length_append, ih]
    simp [loopLines, isTimeLine, isLossLineFor]

theorem loopLine_vals_nonneg {P B : Type} (fw : Framework P B) {clock : ℕ → ℚ}
    (hL : ∀ p b, 0 ≤ fw.trainLoss p b) (hE : ∀ p b, 0 ≤ fw.evalLoss p b)
    (hclk : Monotone clock) (n : ℕ) (l : LogLine)
    (hl : l ∈ segs (loopLines fw clock) n) : ∀ q ∈ lineVals l, 0 ≤ q := by
  obtain ⟨i, _, hi⟩ := (mem_segs _ _ _).mp hl
  intro q hq
  simp only [loopLines, List.mem_cons, List.not_mem_nil, or_false] at hi
  rcases hi with rfl | rfl
  · simp only [lineVals, List.mem_cons, List.not_mem_nil, or_false] at hq
    rcases hq with rfl | rfl
    · exact epochTrainLoss_nonneg fw hL i
    · exact epochValLoss_nonneg fw hE i
  · simp only [lineVals, List.mem_cons, List.not_mem_nil, or_false] at hq
    rcases hq with rfl | rfl
    · exact timeTrainVal_nonneg hclk i
    · exact timeValVal_nonneg hclk i

theorem recapLine_vals_nonneg {clock : ℕ → ℚ} (hclk : Monotone clock) (n : ℕ)
    (l : LogLine) (hl : l ∈ recapLines clock n) : ∀ q ∈ lineVals l, 0 ≤ q := by
  intro q hq
  rcases List.mem_cons.mp hl with rfl | h
  · simp [lineVals] at hq
  · obtain ⟨i, _, rfl⟩ := (mem_colMap _ _ _).mp h
    simp only [lineVals, List.mem_cons, List.not_mem_nil, or_false] at hq
    rcases hq with rfl | rfl
    · exact timeTrainVal_nonneg hclk i
    · exact timeValVal_nonneg hclk i

/-!  ### Characterizing the events of one epoch  -/

theorem eventPhase_epochEvents {P B : Type} (fw : Framework P B) (rank : Int)
    (clock : ℕ → ℚ) (i : ℕ) :
    ∀ e ∈ epochEvents fw rank clock i, eventPhase e = 6 := by
  intro e he
  by_cases hr : rank = 0 <;>
    simp only [epochEvents, loopLines, hr, if_true, if_false, ite_true, ite_false,
      List.map_cons, List.map_nil, List.mem_append, List.mem_cons, List.mem_map,
      List.not_mem_nil, or_false] at he
  · rcases he with ((((rfl | rfl) | ⟨_, _, rfl⟩) | rfl) | ⟨_, _, rfl⟩) | (rfl | rfl) <;> rfl
  · rcases he with (((rfl | rfl) | ⟨_, _, rfl⟩) | rfl) | ⟨_, _, rfl⟩ <;> rfl

theorem setEpoch_mem_epochEvents {P B : Type} {fw : Framework P B} {rank : Int}
    {clock : ℕ → ℚ} {j k : ℕ}
    (h : Event.setEpoch k ∈ epochEvents fw rank clock j) : k = j := by
  by_cases hr : rank = 0 <;>
    simp [epochEvents, loopLines, hr] at h <;> exact h

theorem trainBatch_mem_epochEvents {P B : Type} {fw : Framework P B} {rank : Int}
    {clock : ℕ → ℚ} {j k : ℕ} {d : Int}
    (h : Event.trainBatch k d ∈ epochEvents fw rank clock j) : k = j ∧ d = rank := by
  by_cases hr : rank = 0 <;> simp [epochEvents, loopLines, hr] at h
  · exact ⟨h.2.1, by rw [hr]; exact h.2.2⟩
  · exact ⟨h.2.1, h.2.2⟩

theorem valBatch_mem_epochEvents {P B : Type} {fw : Framework P B} {rank : Int}
    {clock : ℕ → ℚ} {j k : ℕ} {d : Int}
    (h : Event.valBatch k d ∈ epochEvents fw rank clock j) : k = j ∧ d = rank := by
  by_cases hr : rank = 0 <;> simp [epochEvents, loopLines, hr] at h
  · exact ⟨h.2.1, by rw [hr]; exact h.2.2⟩
  · exact ⟨h.2.1, h.2.2⟩

theorem logWrite_mem_epochEvents {P B : Type} {fw : Framework P B} {rank : Int}
    {clock : ℕ → ℚ} {j : ℕ} {l : LogLine}
    (h : Event.logWrite l ∈ epochEvents fw rank clock j) :
    rank = 0 ∧ l ∈ loopLines fw clock j := by
  by_cases hr : rank = 0 <;> simp [epochEvents, loopLines, hr] at h
  · refine ⟨hr, ?_⟩
    rcases h with rfl | rfl <;> simp [loopLines]

theorem setEpoch_mem_self {P B : Type} (fw : Framework P B) (rank : Int)
    (clock : ℕ → ℚ) (i : ℕ) : Event.setEpoch i ∈ epochEvents fw rank clock i := by
  simp [epochEvents]

theorem evalMode_mem_self {P B : Type} (fw : Framework P B) (rank : Int)
    (clock : ℕ → ℚ) (i : ℕ) : Event.evalMode i ∈ epochEvents fw rank clock i := by
  simp [epochEvents]

/-!  ### Inverting a successful run of `__main__`  -/

theorem runProgram_ok {P B : Type} {w : World} {fw : Framework P B}
    {r : ProgResult P} (h : runProgram w fw = .ok r) :
    ∃ ma mp rs ws rank worldSize,
      w.envGet "MASTER_ADDR" = some ma ∧ w.envGet "MASTER_PORT" = some mp ∧
      w.envGet "RANK" = some rs ∧ w.envGet "WORLD_SIZE" = some ws ∧
      pyInt rs = some rank ∧ pyInt ws = some worldSize ∧ w.numGpus ≠ 0 ∧
      r = buildResult w fw ⟨ma, mp, rs, ws⟩ rank worldSize := by
  unfold runProgram at h
  split at h
  · exact Except.noConfusion h
  next ma hma =>
  split at h
  · exact Except.noConfusion h
  next mp hmp =>
  split at h
  · exact Except.noConfusion h
  next rs hrs =>
  split at h
  · exact Except.noConfusion h
  next ws hws =>
  split at h
  · exact Except.noConfusion h
  next rank hrank =>
  split at h
  · exact Except.noConfusion h
  next worldSize hworldSize =>
  split at h
  · exact Except.noConfusion h
  next hg =>
  injection h with h
  exact ⟨ma, mp, rs, ws, rank, worldSize, hma, hmp, hrs, hws, hrank, hworldSize,
    hg, h.symm⟩

/-!  ### The claims  -/

/-- C6: the `--local_rank` command-line flag is optional (modelled as an
`Option Int` in the world) and unused beyond argument parsing: two runs
that are identical except for the value (or presence) of `--local_rank`
produce identical outcomes — same log, same files, same events, same
returned model. -/
theorem claim_C6_local_rank_unused {P B : Type}
    (envGet : String → Option String) (pid : ℕ) (currentTime : String)
    (numGpus : ℕ) (datasetPresent : Bool) (clock : ℕ → ℚ)
    (lr lr' : Option Int) (fw : Framework P B) :
    runProgram ⟨envGet, pid, currentTime, numGpus, datasetPresent, clock, lr⟩ fw
      = runProgram ⟨envGet, pid, currentTime, numGpus, datasetPresent, clock, lr'⟩ fw :=
  rfl

/-- C10: the validation pass never modifies the model parameters: the
validation fold returns them unchanged, so the parameters entering epoch
`i + 1` are exactly the parameters left by epoch `i`'s train loop; the final
model returned by a successful run is `paramsAt fw 50`, and every epoch's
validation runs after `torch.no_grad()` + `model.eval()` (the `evalMode`
event). -/
theorem claim_C10_validation_preserves_params {P B : Type} (fw : Framework P B) :
    (∀ (p : P) (bs : List B), (valFold fw p bs).1 = p) ∧
    (∀ i, paramsAt fw (i + 1) = trainEndParams fw i) ∧
    (∀ (w : World) (r : ProgResult P), runProgram w fw = Except.ok r →
      r.finalParams = paramsAt fw 50 ∧ ∀ i, i < 50 → Event.evalMode i ∈ r.events) := by
  refine ⟨valFold_params fw, ?_, ?_⟩
  · intro i
    rw [paramsAt, valFold_params]
    rfl
  · intro w r hok
    obtain ⟨ma, mp, rs, ws, rank, worldSize, _, _, _, _, _, _, _, rfl⟩ :=
      runProgram_ok hok
    constructor
    · simp [buildResult, runMain_eq]
    · intro i hi
      have hm : Event.evalMode i ∈ segs (epochEvents fw rank w.clock) 50 :=
        (mem_segs _ _ _).mpr ⟨i, hi, evalMode_mem_self fw rank w.clock i⟩
      simp [buildResult, runMain_eq, List.mem_append, List.mem_cons, hm]

/-- Witness for C10 at the concrete rank-0 world. -/
theorem claim_C10_witness :
    cRes.finalParams = paramsAt cFW 50 ∧ Event.evalMode 7 ∈ cRes.events :=
  ⟨((claim_C10_validation_preserves_params cFW).2.2 cWorldOk cRes rfl).1,
   ((claim_C10_validation_preserves_params cFW).2.2 cWorldOk cRes rfl).2 7 (by decide)⟩

/-- C2: the program reads exactly the four bootstrap environment variables
`MASTER_ADDR`, `MASTER_PORT`, `RANK`, `WORLD_SIZE` at startup; if any one of
them is missing the run terminates with an uncaught failure (no `ok` result),
and every failing run dies before a single observable event — in particular
before any training — with no retry or recovery path. -/
theorem claim_C2_env_vars {P B : Type} (w : World) (fw : Framework P B) :
    (∀ r : ProgResult P, runProgram w fw = Except.ok r →
      r.envReads = ["MASTER_ADDR", "MASTER_PORT", "RANK", "WORLD_SIZE"]) ∧
    (∀ k ∈ ["MASTER_ADDR", "MASTER_PORT", "RANK", "WORLD_SIZE"],
      w.envGet k = none → (runProgram w fw).toOption = none) ∧
    (∀ e evs, runProgram w fw = Except.error (e, evs) → evs = []) := by
  refine ⟨?_, ?_, ?_⟩
  · intro r hok
    obtain ⟨ma, mp, rs, ws, rank, worldSize, _, _, _, _, _, _, _, rfl⟩ :=
      runProgram_ok hok
    simp [buildResult, bootstrapKeys]
  · intro k hk hnone
    simp only [List.mem_cons, List.not_mem_nil, or_false] at hk
    rcases hk with rfl | rfl | rfl | rfl
    · simp [runProgram, hnone, Except.toOption]
    · cases hma : w.envGet "MASTER_ADDR" <;>
        simp [runProgram, hma, hnone, Except.toOption]
    · cases hma : w.envGet "MASTER_ADDR" <;>
        cases hmp : w.envGet "MASTER_PORT" <;>
        simp [runProgram, hma, hmp, hnone, Except.toOption]
    · cases hma : w.envGet "MASTER_ADDR" <;>
        cases hmp : w.envGet "MASTER_PORT" <;>
        cases hrs : w.envGet "RANK" <;>
        simp [runProgram, hma, hmp, hrs, hnone, Except.toOption]
  · intro e evs h
    unfold runProgram at h
    repeat' split at h
    all_goals
      first
      | (simp only [Except.error.injEq, Prod.mk.injEq] at h; exact h.2.symm)
      | exact Except.noConfusion h

/-- Witness for C2: the healthy world yields a run that consumed exactly the
four variables; removing them all makes the run fail. -/
theorem claim_C2_witness :
    cRes.envReads = ["MASTER_ADDR", "MASTER_PORT", "RANK", "WORLD_SIZE"] ∧
    (runProgram cWorldBad cFW).toOption = none :=
  ⟨(claim_C2_env_vars cWorldOk cFW).1 cRes rfl,
   (claim_C2_env_vars cWorldBad cFW).2.1 "MASTER_ADDR" (by simp) rfl⟩

/-- C3: the log file is named from the timestamp and the pid
(`logger_ddp_{time}_{pid}.txt`), and it is opened and written only by the
rank-0 process: a run with non-zero rank opens no file and writes no log
line at all. -/
theorem claim_C3_rank0_logging {P B : Type} (w : World) (fw : Framework P B)
    (r : ProgResult P) (hok : runProgram w fw = Except.ok r) :
    r.logFilePath = "logger_ddp_" ++ w.currentTime ++ "_" ++ toString w.pid ++ ".txt" ∧
    (r.rank = 0 → r.filesOpened = [r.logFilePath]) ∧
    (r.rank ≠ 0 → r.filesOpened = [] ∧ r.log = [] ∧
      ∀ l, Event.logWrite l ∉ r.events) := by
  obtain ⟨ma, mp, rs, ws, rank, worldSize, _, _, _, _, _, _, _, rfl⟩ :=
    runProgram_ok hok
  refine ⟨rfl, ?_, ?_⟩
  · intro hr
    simp only [buildResult] at hr
    simp [buildResult, hr, logPathOf]
  · intro hr
    simp only [buildResult] at hr
    refine ⟨by simp [buildResult, hr], by simp [buildResult, runMain_eq, hr], ?_⟩
    intro l hl
    cases hd : w.datasetPresent <;>
      simp [buildResult, runMain_eq, hr, hd, List.mem_append, List.mem_cons] at hl
    all_goals
      obtain ⟨j, _, hj⟩ := (mem_segs _ _ _).mp hl
    all_goals
      exact hr (logWrite_mem_epochEvents hj).1

/-- Witness for C3 at the concrete rank-1 world. -/
theorem claim_C3_witness : cResR1.filesOpened = [] ∧ cResR1.log = [] :=
  ⟨((claim_C3_rank0_logging cWorldR1 cFW cResR1 rfl).2.2 (by decide)).1,
   ((claim_C3_rank0_logging cWorldR1 cFW cResR1 rfl).2.2 (by decide)).2.1⟩

theorem filter_colMap_nil {α : Type} (p : α → Bool) (f : ℕ → α) (n : ℕ)
    (h : ∀ i, p (f i) = false) : (colMap f n).filter p = [] := by
  induction n with
  | zero => rfl
  | succ n ih => simp [colMap, List.filter_append, ih, h]

theorem logPathOf_length (w : World) :
    (logPathOf w).length
      = 11 + w.currentTime.length + 1 + (toString w.pid).length + 4 := by
  simp only [logPathOf, String.length_append]
  have h1 : "logger_ddp_".length = 11 := rfl
  have h2 : "_".length = 1 := rfl
  have h3 : ".txt".length = 4 := rfl
  rw [h1, h2, h3]

theorem logPathOf_ne_model (w : World) : logPathOf w ≠ "model.pt" := by
  intro h
  have h1 := congrArg String.length h
  rw [logPathOf_length] at h1
  have h2 : "model.pt".length = 8 := rfl
  rw [h2] at h1
  omega

/-- C8 (device-index mismatch): a successful run sets the per-process CUDA
device to `rank % num_gpus`, but the model and every train/validation batch
live on device `cuda:{rank}` with the global rank unmodified; the two
indices coincide only when `rank < num_gpus`, so whenever
`num_gpus ≤ rank` the training device differs from the device that was
set. -/
theorem claim_C8_device_mismatch {P B : Type} (w : World) (fw : Framework P B)
    (r : ProgResult P) (hok : runProgram w fw = Except.ok r) :
    r.setDeviceIdx = r.rank % (r.numGpus : Int) ∧
    r.trainDeviceIdx = r.rank ∧
    Event.setDevice r.setDeviceIdx ∈ r.events ∧
    Event.modelToDevice r.trainDeviceIdx ∈ r.events ∧
    (∀ k d, Event.trainBatch k d ∈ r.events → d = r.rank) ∧
    (∀ k d, Event.valBatch k d ∈ r.events → d = r.rank) ∧
    (r.setDeviceIdx = r.trainDeviceIdx → r.rank < (r.numGpus : Int)) ∧
    ((r.numGpus : Int) ≤ r.rank → r.setDeviceIdx ≠ r.trainDeviceIdx) := by
  obtain ⟨ma, mp, rs, ws, rank, worldSize, _, _, _, _, _, _, hg, rfl⟩ :=
    runProgram_ok hok
  have hpos : (0 : Int) < (w.numGpus : Int) := by
    exact_mod_cast Nat.pos_of_ne_zero hg
  refine ⟨rfl, rfl, ?_, ?_, ?_, ?_, ?_, ?_⟩
  · simp [buildResult]
  · simp [buildResult, runMain_eq]
  · intro k d hk
    cases hd : w.datasetPresent <;> by_cases hr0 : rank = 0 <;>
      simp [buildResult, runMain_eq, hd, hr0, List.mem_append, List.mem_cons] at hk
    all_goals
      obtain ⟨j, _, hj⟩ := (mem_segs _ _ _).mp hk
    all_goals
      simp only [buildResult]
    · rw [hr0]
      exact (trainBatch_mem_epochEvents hj).2
    · exact (trainBatch_mem_epochEvents hj).2
    · rw [hr0]
      exact (trainBatch_mem_epochEvents hj).2
    · exact (trainBatch_mem_epochEvents hj).2
  · intro k d hk
    cases hd : w.datasetPresent <;> by_cases hr0 : rank = 0 <;>
      simp [buildResult, runMain_eq, hd, hr0, List.mem_append, List.mem_cons] at hk
    all_goals
      obtain ⟨j, _, hj⟩ := (mem_segs _ _ _).mp hk
    all_goals
      simp only [buildResult]
    · rw [hr0]
      exact (valBatch_mem_epochEvents hj).2
    · exact (valBatch_mem_epochEvents hj).2
    · rw [hr0]
      exact (valBatch_mem_epochEvents hj).2
    · exact (valBatch_mem_epochEvents hj).2
  · intro heq
    simp only [buildResult] at heq ⊢
    have hlt := Int.emod_lt_of_pos rank hpos
    rw [heq] at hlt
    exact hlt
  · intro hle heq
    simp only [buildResult] at heq hle
    have hlt := Int.emod_lt_of_pos rank hpos
    rw [heq] at hlt
    omega

/-- Witness for C8 at the concrete rank-1 world (one GPU, so
`num_gpus ≤ rank` and the device indices differ). -/
theorem claim_C8_witness :
    cResR1.setDeviceIdx ≠ cResR1.trainDeviceIdx ∧
    cResR1.trainDeviceIdx = cResR1.rank :=
  ⟨(claim_C8_device_mismatch cWorldR1 cFW cResR1 rfl).2.2.2.2.2.2.2 (by decide),
   (claim_C8_device_mismatch cWorldR1 cFW cResR1 rfl).2.1⟩

/-- C9: the logged `train_loss` of epoch `i` is the sum over that epoch's
batches of the batch's mean cross-entropy loss divided a second time by the
batch size (`epoch_loss += batch_loss.item() / x.shape[0]`), and the logged
`val_loss` is the corresponding doubly-normalized sum over validation
batches; each epoch has exactly one such loss line. -/
theorem claim_C9_loss_normalization {P B : Type} (w : World) (fw : Framework P B)
    (r : ProgResult P) (hok : runProgram w fw = Except.ok r) (hr : r.rank = 0)
    (i : ℕ) (hi : i < 50) :
    LogLine.epochLoss i
        ((perBatchTrainTerms fw (paramsAt fw i) (fw.trainBatchesAt i)).sum)
        ((fw.valBatches.map
          (fun b => fw.evalLoss (trainEndParams fw i) b / (fw.batchSize b : ℚ))).sum)
      ∈ r.log ∧
    (r.log.filter (isLossLineFor i)).length = 1 := by
  obtain ⟨ma, mp, rs, ws, rank, worldSize, _, _, _, _, _, _, _, rfl⟩ :=
    runProgram_ok hok
  simp only [buildResult] at hr
  subst hr
  constructor
  · have h1 : epochTrainLoss fw i
        = (perBatchTrainTerms fw (paramsAt fw i) (fw.trainBatchesAt i)).sum :=
      trainFold_sum fw _ _
    have h2 : epochValLoss fw i
        = (fw.valBatches.map
          (fun b => fw.evalLoss (trainEndParams fw i) b / (fw.batchSize b : ℚ))).sum :=
      valFold_sum fw _ _
    have hm : LogLine.epochLoss i (epochTrainLoss fw i) (epochValLoss fw i)
        ∈ segs (loopLines fw w.clock) 50 :=
      (mem_segs _ _ _).mpr ⟨i, hi, by simp [loopLines]⟩
    rw [← h1, ← h2]
    simp [buildResult, runMain_eq, List.mem_append, hm]
  · have hh : (headerLines w ⟨ma, mp, rs, ws⟩ worldSize 0).filter (isLossLineFor i)
        = [] := by
      simp [headerLines, isLossLineFor]
    have hrc : (recapLines w.clock 50).filter (isLossLineFor i) = [] := by
      simp only [recapLines, List.filter_cons]
      rw [filter_colMap_nil _ _ _ (fun j => by simp [isLossLineFor])]
      simp [isLossLineFor]
    have h00 : ((0 : ℤ) = 0) = True := by simp
    simp only [buildResult, runMain_eq, h00, if_true]
    rw [List.filter_append, List.filter_append, List.length_append,
      List.length_append, hh, hrc, lossLine_count]
    simp [hi]

/-- Witness for C9 at the concrete rank-0 world, epoch 0. -/
theorem claim_C9_witness :
    LogLine.epochLoss 0
        ((perBatchTrainTerms cFW (paramsAt cFW 0) (cFW.trainBatchesAt 0)).sum)
        ((cFW.valBatches.map
          (fun b => cFW.evalLoss (trainEndParams cFW 0) b / (cFW.batchSize b : ℚ))).sum)
      ∈ cRes.log ∧
    (cRes.log.filter (isLossLineFor 0)).length = 1 :=
  claim_C9_loss_normalization cWorldOk cFW cRes rfl rfl 0 (by decide)

/-- Counterexample to C7 as stated: on a run where `./mnist_data` is not yet
present, the `download=True` dataset constructors write the dataset to disk,
so the log file is not the only file the program writes. -/
theorem claim_C7_counterexample :
    cResDl.filesWritten = [cResDl.logFilePath, mnistDir] ∧
    cResDl.filesWritten ≠ [cResDl.logFilePath] :=
  ⟨rfl, by decide⟩

/-- C7 (amended): the program writes no files beyond the rank-0 log file and
the MNIST dataset directory, the latter only when the dataset is not already
on disk; checkpoint saving is inactive, so `model.pt` is never written, and
when the dataset is already present the log file is the only write (and a
non-zero-rank process writes nothing at all). -/
theorem claim_C7_amended {P B : Type} (w : World) (fw : Framework P B)
    (r : ProgResult P) (hok : runProgram w fw = Except.ok r) :
    r.filesWritten = (if r.rank = 0 then [r.logFilePath] else [])
        ++ (if w.datasetPresent then [] else [mnistDir]) ∧
    (∀ p ∈ r.filesWritten, p = r.logFilePath ∨ p = mnistDir) ∧
    "model.pt" ∉ r.filesWritten ∧
    (w.datasetPresent = true → r.rank = 0 → r.filesWritten = [r.logFilePath]) ∧
    (w.datasetPresent = true → r.rank ≠ 0 → r.filesWritten = []) := by
  obtain ⟨ma, mp, rs, ws, rank, worldSize, _, _, _, _, _, _, _, rfl⟩ :=
    runProgram_ok hok
  have hmem : ∀ p ∈ (buildResult w fw ⟨ma, mp, rs, ws⟩ rank worldSize).filesWritten,
      p = (buildResult w fw ⟨ma, mp, rs, ws⟩ rank worldSize).logFilePath
        ∨ p = mnistDir := by
    intro p hp
    simp only [buildResult]
    cases hd : w.datasetPresent <;> by_cases hr0 : rank = 0 <;>
      simp only [buildResult, hd, hr0] at hp <;> simp at hp <;> tauto
  refine ⟨rfl, hmem, ?_, ?_, ?_⟩
  · intro hin
    rcases hmem _ hin with h | h
    · exact logPathOf_ne_model w h.symm
    · exact absurd h (by decide)
  · intro hd hr0
    simp only [buildResult] at hr0 ⊢
    simp [hd, hr0]
  · intro hd hr0
    simp only [buildResult] at hr0 ⊢
    simp [hd, hr0]

/-- Witness for C7 (amended) at the concrete dataset-absent world. -/
theorem claim_C7_witness :
    cResDl.filesWritten
      = (if cResDl.rank = 0 then [cResDl.logFilePath] else [])
        ++ (if cWorldDl.datasetPresent then [] else [mnistDir]) ∧
    "model.pt" ∉ cResDl.filesWritten :=
  ⟨(claim_C7_amended cWorldDl cFW cResDl rfl).1,
   (claim_C7_amended cWorldDl cFW cResDl rfl).2.2.1⟩

/-- Counterexample to C1 as stated: in a concrete rank-0 run the epoch loop
writes two lines per epoch — one carrying the losses (line 129), one
carrying the times (line 130) — so with 50 epochs the loop-written portion
of the log has 100 lines, not one per epoch, and no single line carries an
epoch's losses and times together. -/
theorem claim_C1_counterexample :
    (cRes.log.filter isLoopLine).length = 2 * 50 ∧
    ¬ ((cRes.log.filter isLoopLine).length = 50) ∧
    (cRes.log.filter (fun l => isLossLineFor 0 l && isTimeLine l)).length = 0 :=
  ⟨rfl, by decide, rfl⟩

/-- C1 (amended): in every successful rank-0 run the log file is created,
the epoch loop writes exactly one loss line per epoch (and one timing line
per epoch, 50 in total), and — provided the framework's batch losses are
non-negative, as cross-entropy is, and the wall clock is monotone — every
loss and timing value written to the log is non-negative. -/
theorem claim_C1_amended {P B : Type} (w : World) (fw : Framework P B)
    (r : ProgResult P) (hok : runProgram w fw = Except.ok r) (hr : r.rank = 0)
    (hL : ∀ p b, 0 ≤ fw.trainLoss p b) (hE : ∀ p b, 0 ≤ fw.evalLoss p b)
    (hclk : Monotone w.clock) :
    r.filesOpened = [r.logFilePath] ∧
    (∀ i, i < 50 → (r.log.filter (isLossLineFor i)).length = 1) ∧
    (r.log.filter isTimeLine).length = 50 ∧
    (∀ l ∈ r.log, ∀ q ∈ lineVals l, 0 ≤ q) := by
  obtain ⟨ma, mp, rs, ws, rank, worldSize, _, _, _, _, _, _, _, rfl⟩ :=
    runProgram_ok hok
  simp only [buildResult] at hr
  subst hr
  have h00 : ((0 : ℤ) = 0) = True := by simp
  refine ⟨by simp [buildResult], ?_, ?_, ?_⟩
  · intro i hi
    have hh : (headerLines w ⟨ma, mp, rs, ws⟩ worldSize 0).filter (isLossLineFor i)
        = [] := by
      simp [headerLines, isLossLineFor]
    have hrc : (recapLines w.clock 50).filter (isLossLineFor i) = [] := by
      simp only [recapLines, List.filter_cons]
      rw [filter_colMap_nil _ _ _ (fun j => by simp [isLossLineFor])]
      simp [isLossLineFor]
    simp only [buildResult, runMain_eq, h00, if_true]
    rw [List.filter_append, List.filter_append, List.length_append,
      List.length_append, hh, hrc, lossLine_count]
    simp [hi]
  · have hh : (headerLines w ⟨ma, mp, rs, ws⟩ worldSize 0).filter isTimeLine
        = [] := by
      simp [headerLines, isTimeLine]
    have hrc : (recapLines w.clock 50).filter isTimeLine = [] := by
      simp only [recapLines, List.filter_cons]
      rw [filter_colMap_nil _ _ _ (fun j => by simp [isTimeLine])]
      simp [isTimeLine]
    simp only [buildResult, runMain_eq, h00, if_true]
    rw [List.filter_append, List.filter_append, List.length_append,
      List.length_append, hh, hrc, timeLine_count]
    simp
  · intro l hl
    simp only [buildResult, runMain_eq, h00, if_true, List.mem_append] at hl
    rcases hl with hl | hl | hl
    · intro q hq
      simp only [headerLines, List.mem_cons, List.not_mem_nil, or_false] at hl
      rcases hl with rfl | rfl | rfl <;> simp [lineVals] at hq
    · exact loopLine_vals_nonneg fw hL hE hclk 50 l hl
    · exact recapLine_vals_nonneg hclk 50 l hl

/-- Witness for C1 (amended) at the concrete rank-0 world. -/
theorem claim_C1_witness :
    cRes.filesOpened = [cRes.logFilePath] ∧
    (cRes.log.filter (isLossLineFor 3)).length = 1 ∧
    (cRes.log.filter isTimeLine).length = 50 :=
  ⟨(claim_C1_amended cWorldOk cFW cRes rfl rfl (fun _ _ => le_rfl)
      (fun _ _ => le_rfl) (fun _ _ h => Nat.mono_cast h)).1,
   (claim_C1_amended cWorldOk cFW cRes rfl rfl (fun _ _ => le_rfl)
      (fun _ _ => le_rfl) (fun _ _ h => Nat.mono_cast h)).2.1 3 (by decide),
   (claim_C1_amended cWorldOk cFW cRes rfl rfl (fun _ _ => le_rfl)
      (fun _ _ => le_rfl) (fun _ _ h => Nat.mono_cast h)).2.2.1⟩

/-- C4: in every successful run, and for every epoch `i` in `0..49`,
`train_loader.sampler.set_epoch(i)` is called exactly once, and it happens
before any batch of epoch `i`'s train loader is consumed: the trace splits
around a unique `setEpoch i` event with no epoch-`i` train batch before
it. -/
theorem claim_C4_set_epoch {P B : Type} (w : World) (fw : Framework P B)
    (r : ProgResult P) (hok : runProgram w fw = Except.ok r)
    (i : ℕ) (hi : i < 50) :
    ∃ pre post, r.events = pre ++ Event.setEpoch i :: post ∧
      Event.setEpoch i ∉ pre ∧ Event.setEpoch i ∉ post ∧
      ∀ d, Event.trainBatch i d ∉ pre := by
  obtain ⟨ma, mp, rs, ws, rank, worldSize, _, _, _, _, _, _, _, rfl⟩ :=
    runProgram_ok hok
  obtain ⟨suf, hs, hsuf⟩ := segs_decomp (epochEvents fw rank w.clock) hi
  refine ⟨Event.setDevice (rank % (w.numGpus : Int)) :: Event.initProcessGroup ::
      ((if rank = 0 then
          Event.openLogFile (logPathOf w)
            :: (headerLines w ⟨ma, mp, rs, ws⟩ worldSize rank).map Event.logWrite
        else [])
        ++ (if w.datasetPresent then [] else [Event.downloadDataset mnistDir])
        ++ Event.createLoaders :: Event.createModel :: Event.modelToDevice rank ::
          (segs (epochEvents fw rank w.clock) i ++ [Event.trainMode i])),
      ((fw.trainBatchesAt i).map (fun _ => Event.trainBatch i rank)
        ++ [Event.evalMode i]
        ++ fw.valBatches.map (fun _ => Event.valBatch i rank)
        ++ (if rank = 0 then (loopLines fw w.clock i).map Event.logWrite else []))
        ++ (suf ++ ((if rank = 0 then (recapLines w.clock 50).map Event.logWrite
            else [])
          ++ [Event.destroyProcessGroup])),
      ?_, ?_, ?_, ?_⟩
  · simp only [buildResult, runMain_eq, hs, epochEvents]
    simp [List.append_assoc, List.cons_append]
    by_cases hr0 : rank = 0 <;> simp [hr0]
  · intro h
    cases hd : w.datasetPresent <;> by_cases hr0 : rank = 0 <;>
      simp [hd, hr0, headerLines, mem_segs] at h
    all_goals
      obtain ⟨j, hj, hmem⟩ := h
    all_goals
      have hji := setEpoch_mem_epochEvents hmem
      omega
  · intro h
    by_cases hr0 : rank = 0 <;> simp [hr0, loopLines, recapLines, mem_colMap] at h
    all_goals
      obtain ⟨j, hj1, hj2, hmem⟩ := hsuf _ h
    all_goals
      have hji := setEpoch_mem_epochEvents hmem
      omega
  · intro d h
    cases hd : w.datasetPresent <;> by_cases hr0 : rank = 0 <;>
      simp [hd, hr0, headerLines, mem_segs] at h
    all_goals
      obtain ⟨j, hj, hmem⟩ := h
    all_goals
      have hji := (trainBatch_mem_epochEvents hmem).1
      omega

/-- Witness for C4 at the concrete rank-0 world, epoch 3. -/
theorem claim_C4_witness :
    Event.setEpoch 3 ∈ cRes.events ∧ cRes.events.count (Event.setEpoch 3) = 1 := by
  obtain ⟨pre, post, heq, h1, h2, _⟩ :=
    claim_C4_set_epoch cWorldOk cFW cRes rfl 3 (by decide)
  constructor
  · rw [heq]
    exact List.mem_append_right _ (List.mem_cons_self _ _)
  · rw [heq, List.count_append]
    rw [List.count_eq_zero.mpr h1]
    simp [List.count_cons, List.count_eq_zero.mpr h2]

theorem eventPhase_le (e : Event) : eventPhase e ≤ 8 := by
  cases e with
  | logWrite l => cases l <;> simp [eventPhase, linePhase]
  | setDevice idx => simp [eventPhase]
  | initProcessGroup => simp [eventPhase]
  | openLogFile p => simp [eventPhase]
  | downloadDataset p => simp [eventPhase]
  | createLoaders => simp [eventPhase]
  | createModel => simp [eventPhase]
  | modelToDevice idx => simp [eventPhase]
  | trainMode i => simp [eventPhase]
  | setEpoch i => simp [eventPhase]
  | trainBatch i d => simp [eventPhase]
  | evalMode i => simp [eventPhase]
  | valBatch i d => simp [eventPhase]
  | destroyProcessGroup => simp [eventPhase]

theorem pairwise_phase_const {l : List Event} {c : ℕ}
    (h : ∀ e ∈ l, eventPhase e = c) :
    l.Pairwise (fun a b => eventPhase a ≤ eventPhase b) := by
  induction l with
  | nil => exact List.Pairwise.nil
  | cons a l ih =>
    refine List.Pairwise.cons ?_ (ih fun e he => h e (List.mem_cons_of_mem a he))
    intro b hb
    rw [h a (List.mem_cons_self a l), h b (List.mem_cons_of_mem a hb)]

theorem segs_phase {P B : Type} (fw : Framework P B) (rank : Int) (clock : ℕ → ℚ)
    (n : ℕ) : ∀ e ∈ segs (epochEvents fw rank clock) n, eventPhase e = 6 := by
  intro e he
  obtain ⟨j, _, hmem⟩ := (mem_segs _ _ _).mp he
  exact eventPhase_epochEvents fw rank clock j e hmem

theorem recap_phase (clock : ℕ → ℚ) (n : ℕ) :
    ∀ e ∈ (recapLines clock n).map Event.logWrite, eventPhase e = 7 := by
  intro e he
  simp only [recapLines, List.map_cons, List.mem_cons, List.mem_map] at he
  rcases he with rfl | ⟨a, ha, rfl⟩
  · rfl
  · obtain ⟨j, _, rfl⟩ := (mem_colMap _ _ _).mp ha
    rfl

theorem headers_phase (w : World) (env : EnvDict) (worldSize rank : Int) :
    ∀ e ∈ (headerLines w env worldSize rank).map Event.logWrite,
      eventPhase e = 2 := by
  intro e he
  simp only [headerLines, List.map_cons, List.map_nil, List.mem_cons,
    List.not_mem_nil, or_false] at he
  rcases he with rfl | rfl | rfl <;> rfl

theorem pairwise_phase_blocks (d x : Int) (HB DB SEG RB : List Event)
    (hHB : ∀ e ∈ HB, eventPhase e = 2)
    (hDB : ∀ e ∈ DB, eventPhase e = 3)
    (hSEG : ∀ e ∈ SEG, eventPhase e = 6)
    (hRB : ∀ e ∈ RB, eventPhase e = 7) :
    (Event.setDevice d :: Event.initProcessGroup ::
      (HB ++ DB ++ Event.createLoaders :: Event.createModel ::
        ((Event.modelToDevice x :: (SEG ++ RB))
          ++ [Event.destroyProcessGroup]))).Pairwise
      (fun a b => eventPhase a ≤ eventPhase b) := by
  have hT1 : ∀ e ∈ SEG ++ RB, 6 ≤ eventPhase e := by
    intro e he
    rcases List.mem_append.mp he with h | h
    · exact le_of_eq (hSEG e h).symm
    · rw [hRB e h]
      omega
  have pT1 : (SEG ++ RB).Pairwise (fun a b => eventPhase a ≤ eventPhase b) :=
    List.pairwise_append.mpr ⟨pairwise_phase_const hSEG, pairwise_phase_const hRB,
      fun a ha b hb => by rw [hSEG a ha, hRB b hb]; omega⟩
  have hT2 : ∀ e ∈ Event.modelToDevice x :: (SEG ++ RB), 5 ≤ eventPhase e := by
    intro e he
    rcases List.mem_cons.mp he with rfl | h
    · simp [eventPhase]
    · have := hT1 e h
      omega
  have pT2 : (Event.modelToDevice x :: (SEG ++ RB)).Pairwise
      (fun a b => eventPhase a ≤ eventPhase b) :=
    List.Pairwise.cons
      (fun b hb => by
        have h1 := hT1 b hb
        have h0 : eventPhase (Event.modelToDevice x) = 5 := rfl
        omega)
      pT1
  have pT3 : ((Event.modelToDevice x :: (SEG ++ RB))
      ++ [Event.destroyProcessGroup]).Pairwise
      (fun a b => eventPhase a ≤ eventPhase b) :=
    List.pairwise_append.mpr ⟨pT2, by simp, fun a _ b hb => by
      rw [List.mem_singleton] at hb
      subst hb
      have h1 := eventPhase_le a
      have h0 : eventPhase Event.destroyProcessGroup = 8 := rfl
      omega⟩
  have hT3 : ∀ e ∈ (Event.modelToDevice x :: (SEG ++ RB))
      ++ [Event.destroyProcessGroup], 5 ≤ eventPhase e := by
    intro e he
    rcases List.mem_append.mp he with h | h
    · exact hT2 e h
    · rw [List.mem_singleton] at h
      subst h
      simp [eventPhase]
  have pT4 : (Event.createModel :: ((Event.modelToDevice x :: (SEG ++ RB))
      ++ [Event.destroyProcessGroup])).Pairwise
      (fun a b => eventPhase a ≤ eventPhase b) :=
    List.Pairwise.cons
      (fun b hb => by
        have h1 := hT3 b hb
        have h0 : eventPhase Event.createModel = 4 := rfl
        omega)
      pT3
  have hT4 : ∀ e ∈ Event.createModel :: ((Event.modelToDevice x :: (SEG ++ RB))
      ++ [Event.destroyProcessGroup]), 4 ≤ eventPhase e := by
    intro e he
    rcases List.mem_cons.mp he with rfl | h
    · simp [eventPhase]
    · have := hT3 e h
      omega
  have pT5 : (Event.createLoaders :: Event.createModel ::
      ((Event.modelToDevice x :: (SEG ++ RB))
        ++ [Event.destroyProcessGroup])).Pairwise
      (fun a b => eventPhase a ≤ eventPhase b) :=
    List.Pairwise.cons
      (fun b hb => by
        have h1 := hT4 b hb
        have h0 : eventPhase Event.createLoaders = 3 := rfl
        omega)
      pT4
  have hT5 : ∀ e ∈ Event.createLoaders :: Event.createModel ::
      ((Event.modelToDevice x :: (SEG ++ RB))
        ++ [Event.destroyProcessGroup]), 3 ≤ eventPhase e := by
    intro e he
    rcases List.mem_cons.mp he with rfl | h
    · simp [eventPhase]
    · have := hT4 e h
      omega
  have pHD : (HB ++ DB).Pairwise (fun a b => eventPhase a ≤ eventPhase b) :=
    List.pairwise_append.mpr ⟨pairwise_phase_const hHB, pairwise_phase_const hDB,
      fun a ha b hb => by
        rw [hHB a ha, hDB b hb]
        omega⟩
  have hHDu : ∀ e ∈ HB ++ DB, eventPhase e ≤ 3 := by
    intro e he
    rcases List.mem_append.mp he with h | h
    · rw [hHB e h]
      omega
    · rw [hDB e h]
  have pT7 : ((HB ++ DB) ++ Event.createLoaders :: Event.createModel ::
      ((Event.modelToDevice x :: (SEG ++ RB))
        ++ [Event.destroyProcessGroup])).Pairwise
      (fun a b => eventPhase a ≤ eventPhase b) :=
    List.pairwise_append.mpr ⟨pHD, pT5,
      fun a ha b hb => le_trans (hHDu a ha) (hT5 b hb)⟩
  have hT7 : ∀ e ∈ (HB ++ DB) ++ Event.createLoaders :: Event.createModel ::
      ((Event.modelToDevice x :: (SEG ++ RB))
        ++ [Event.destroyProcessGroup]), 2 ≤ eventPhase e := by
    intro e he
    rcases List.mem_append.mp he with h | h
    · rcases List.mem_append.mp h with h' | h'
      · rw [hHB e h']
      · rw [hDB e h']
        omega
    · have := hT5 e h
      omega
  refine List.Pairwise.cons ?_ (List.Pairwise.cons ?_ pT7)
  · intro b _
    have h0 : eventPhase (Event.setDevice d) = 0 := rfl
    omega
  · intro b hb
    have h1 := hT7 b hb
    have h0 : eventPhase Event.initProcessGroup = 1 := rfl
    omega

theorem getLast?_shape (d x : Int) (A B C : List Event) :
    (Event.setDevice d :: Event.initProcessGroup ::
      (A ++ B ++ Event.createLoaders :: Event.createModel ::
        ((Event.modelToDevice x :: C) ++ [Event.destroyProcessGroup]))).getLast?
      = some Event.destroyProcessGroup := by
  have h : Event.setDevice d :: Event.initProcessGroup ::
      (A ++ B ++ Event.createLoaders :: Event.createModel ::
        ((Event.modelToDevice x :: C) ++ [Event.destroyProcessGroup]))
      = (Event.setDevice d :: Event.initProcessGroup ::
        (A ++ B ++ Event.createLoaders :: Event.createModel ::
          (Event.modelToDevice x :: C))) ++ [Event.destroyProcessGroup] := by
    simp [List.append_assoc]
  rw [h, List.getLast?_concat]

/-- C5: every successful run follows the linear orchestration order —
device selection and process-group initialization first, then (for rank 0)
log-file creation, then data-loader construction (with the dataset download
if needed), then model construction, then the epochs of
forward/backward/step, then the rank-0 recap of per-epoch timings, and
finally process-group teardown.  Formally the event phases are monotone
along the trace, the trace starts with `setDevice` and ends with
`destroyProcessGroup`, and each stage's event occurs. -/
theorem claim_C5_orchestration {P B : Type} (w : World) (fw : Framework P B)
    (r : ProgResult P) (hok : runProgram w fw = Except.ok r) :
    List.Pairwise (fun a b => eventPhase a ≤ eventPhase b) r.events ∧
    r.events.head? = some (Event.setDevice r.setDeviceIdx) ∧
    Event.initProcessGroup ∈ r.events ∧
    Event.createLoaders ∈ r.events ∧
    Event.createModel ∈ r.events ∧
    Event.modelToDevice r.trainDeviceIdx ∈ r.events ∧
    (∀ i, i < 50 → Event.setEpoch i ∈ r.events) ∧
    r.events.getLast? = some Event.destroyProcessGroup := by
  obtain ⟨ma, mp, rs, ws, rank, worldSize, _, _, _, _, _, _, _, rfl⟩ :=
    runProgram_ok hok
  refine ⟨?_, ?_, ?_, ?_, ?_, ?_, ?_, ?_⟩
  · simp only [buildResult, runMain_eq]
    refine pairwise_phase_blocks _ _ _ _ _ _ ?_ ?_ ?_ ?_
    · intro e he
      by_cases hr0 : rank = 0
      · rw [if_pos hr0] at he
        rcases List.mem_cons.mp he with rfl | h
        · rfl
        · rw [if_pos hr0] at h
          exact headers_phase w _ worldSize rank e h
      · rw [if_neg hr0] at he
        exact absurd he (List.not_mem_nil e)
    · intro e he
      by_cases hd : w.datasetPresent
      · rw [if_pos hd] at he
        exact absurd he (List.not_mem_nil e)
      · rw [if_neg hd] at he
        rw [List.mem_singleton] at he
        subst he
        rfl
    · exact segs_phase fw rank w.clock 50
    · intro e he
      by_cases hr0 : rank = 0
      · rw [if_pos hr0] at he
        exact recap_phase w.clock 50 e he
      · rw [if_neg hr0] at he
        exact absurd he (List.not_mem_nil e)
  · simp [buildResult]
  · simp [buildResult]
  · simp [buildResult, runMain_eq, List.mem_append, List.mem_cons]
  · simp [buildResult, runMain_eq, List.mem_append, List.mem_cons]
  · simp [buildResult, runMain_eq, List.mem_append, List.mem_cons]
  · intro i hi
    have hm : Event.setEpoch i ∈ segs (epochEvents fw rank w.clock) 50 :=
      (mem_segs _ _ _).mpr ⟨i, hi, setEpoch_mem_self fw rank w.clock i⟩
    simp [buildResult, runMain_eq, List.mem_append, List.mem_cons, hm]
  · simp only [buildResult, runMain_eq]
    exact getLast?_shape _ _ _ _ _

/-- Witness for C5 at the concrete rank-0 world. -/
theorem claim_C5_witness :
    List.Pairwise (fun a b => eventPhase a ≤ eventPhase b) cRes.events ∧
    cRes.events.head? = some (Event.setDevice cRes.setDeviceIdx) ∧
    cRes.events.getLast? = some Event.destroyProcessGroup :=
  ⟨(claim_C5_orchestration cWorldOk cFW cRes rfl).1,
   (claim_C5_orchestration cWorldOk cFW cRes rfl).2.1,
   (claim_C5_orchestration cWorldOk cFW cRes rfl).2.2.2.2.2.2.2⟩

end DDPMnist
